import Mathlib

/-!
Verification development for the ingestion pipeline core of the
`pci-catalog` desktop music-library manager.

The definitions below are a shallow embedding of the Rust sources under
`src/src-tauri/src/`, chiefly `features/upload/mod.rs` (queue coordinator
and per-item state machine), `features/upload/audio/transcode.rs` and
`features/upload/audio/error.rs` (transcoder wrapper and its error type),
and the legacy helper `upload.rs`.  External systems (object store,
document store, the ffmpeg process, the filesystem) are modelled by
explicit environments recording the outcome of each call; the pipeline's
visible behaviour is captured as a trace of events (progress emissions,
external calls, cancel-flag polls, temp-file deletions).
-/

namespace PciCatalog

/-- Upload status enum, from `UploadStatus` in `features/upload/mod.rs`
(lines 85-95).  `Error` carries the formatted message string. -/
inductive UploadStatus where
  | Pending
  | Transcoding
  | UploadingOriginal
  | UploadingAAC
  | StoringMetadata
  | Complete
  | Cancelled
  | Error (msg : String)
deriving DecidableEq, Repr

/-- An opaque 64-bit float value, carried through the pipeline as its bit
pattern.  The ingestion core performs no arithmetic on `duration_sec`; it is
copied verbatim from the caller-supplied metadata into the track document. -/
structure F64 where
  bits : Nat
deriving DecidableEq, Repr

/-- `UploadItemMetadata` from `features/upload/mod.rs` (lines 61-76). -/
structure UploadItemMetadata where
  title : Option String
  artist : Option String
  album : Option String
  track_number : Option Nat
  duration_sec : Option F64
  genre : Option String
  composer : Option String
  year : Option Int
  comments : Option String
deriving DecidableEq, Repr

/-- `UploadItemInput` from `features/upload/mod.rs` (lines 78-83). -/
structure UploadItemInput where
  id : String
  path : String
  metadata : UploadItemMetadata
deriving DecidableEq, Repr

/-- `UploadQueueItem` from `features/upload/mod.rs` (lines 107-116).
Item ids (`Uuid` in the source) are modelled as naturals. -/
structure UploadQueueItem where
  id : Nat
  input_path : String
  metadata : UploadItemMetadata
  temp_aac_path : Option String
  r2_original_key : Option String
  r2_aac_key : Option String
  db_track_id : Option String
deriving DecidableEq, Repr

/-- `TranscodingError` from `features/upload/audio/error.rs` (lines 7-39).
Paths are strings; the process exit status is an optional integer. -/
inductive TranscodingError where
  | FFmpegNotFound
  | InputFileNotFound (path : String)
  | OutputDirectoryCreationFailed (path : String) (source_message : String)
  | ProcessStartFailed (source_message : String)
  | ProcessExecutionFailed (status : Option Int) (stderr : String)
  | StderrReadFailed (source_message : String)
  | IoError (source_message : String)
deriving DecidableEq, Repr

/-- Rust's `{:?}` debug formatting of an `Option<i32>` value, as used in the
`ProcessExecutionFailed` display attribute. -/
def optionI32Debug : Option Int → String
  | some n => "Some(" ++ toString n ++ ")"
  | none => "None"

/-- The `Display` implementation of `TranscodingError` derived from the
`#[error(...)]` attributes in `features/upload/audio/error.rs`. -/
def TranscodingError.display : TranscodingError → String
  | .FFmpegNotFound =>
      "FFmpeg command not found. Please ensure FFmpeg is installed and in the system's PATH."
  | .InputFileNotFound p => "Input file not found: " ++ p
  | .OutputDirectoryCreationFailed p m =>
      "Failed to create output directory for " ++ p ++ ": " ++ m
  | .ProcessStartFailed m => "FFmpeg process failed to start: " ++ m
  | .ProcessExecutionFailed st stderr =>
      "FFmpeg execution failed. Exit code: " ++ optionI32Debug st ++ ". Stderr: " ++ stderr
  | .StderrReadFailed m => "Failed to read FFmpeg stderr: " ++ m
  | .IoError m => "An unexpected I/O error occurred: " ++ m

/-- Characters after the last `/` of the list (tail-recursive scan). -/
def fileNameAux : List Char → List Char → List Char
  | acc, [] => acc
  | acc, c :: rest =>
    if c = '/' then fileNameAux [] rest else fileNameAux (acc ++ [c]) rest

/-- `Path::file_name` for Unix-style path strings: the component after the
last separator, defaulting to the empty string (matching the source's
`file_name().unwrap_or_default()`).  Rust's special handling of trailing
`/` or `..` components is not modelled; no pipeline path ends that way. -/
def fileName (p : String) : String :=
  ⟨fileNameAux [] p.data⟩

/-- Decidable equality of `Except` results, component-wise. -/
instance {ε α : Type} [DecidableEq ε] [DecidableEq α] :
    DecidableEq (Except ε α) := fun x y =>
  match x, y with
  | .ok a, .ok b =>
      if h : a = b then .isTrue (by rw [h]) else .isFalse (by simp [h])
  | .error a, .error b =>
      if h : a = b then .isTrue (by rw [h]) else .isFalse (by simp [h])
  | .ok _, .error _ => .isFalse (by simp)
  | .error _, .ok _ => .isFalse (by simp)

/-- Trace events visible during processing: cancel-flag polls (with the
observed value), per-item progress emissions, external calls to the
transcoder / object store / document store, and local temp-file deletions.
`callDocDeleteAlbum` is included so that "the album is never deleted" is a
non-vacuous statement; the pipeline never produces it. -/
inductive TraceEv where
  | poll (observed : Bool)
  | emit (status : UploadStatus) (errMsg : Option String)
  | callTranscodeSpawn (input : String)
  | callBlobPut (key : String)
  | callBlobDelete (key : String)
  | callDocFindAlbum (name : String) (artist : String)
  | callDocInsertAlbum
  | callDocInsertTrack
  | callDocDeleteTrack (id : String)
  | callDocDeleteAlbum (id : String)
  | tempFileDelete (path : String)
deriving DecidableEq, Repr

/-- `perform_cleanup` from `features/upload/mod.rs` (lines 606-612): the
compensating actions actually issued, in source order — temp file first,
then the original blob, then the AAC blob, then the track document. -/
def perform_cleanup (item : UploadQueueItem) : List TraceEv :=
  (match item.temp_aac_path with
   | some p => [TraceEv.tempFileDelete p]
   | none => []) ++
  (match item.r2_original_key with
   | some k => [TraceEv.callBlobDelete k]
   | none => []) ++
  (match item.r2_aac_key with
   | some k => [TraceEv.callBlobDelete k]
   | none => []) ++
  (match item.db_track_id with
   | some i => [TraceEv.callDocDeleteTrack i]
   | none => [])

/-! ## Transcoder wrapper (`features/upload/audio/transcode.rs`) -/

/-- `std::io::ErrorKind`, restricted to the distinctions the transcoder
wrapper could observe. -/
inductive IoErrorKind where
  | notFound
  | permissionDenied
  | other
deriving DecidableEq, Repr

/-- An `std::io::Error`: a kind plus its display message. -/
structure IoError where
  kind : IoErrorKind
  message : String
deriving DecidableEq, Repr

/-- Environment for one call to `transcode_to_aac`: the state of the
filesystem and the outcomes of the process-management calls. -/
structure TranscodeWorld where
  /-- `input_path.exists()` (transcode.rs line 21). -/
  inputExists : Bool
  /-- `parent_dir.exists()` for the output path (line 27). -/
  parentDirExists : Bool
  /-- Outcome of `fs::create_dir_all(parent_dir)` (line 29). -/
  createDirAll : Except IoError Unit
  /-- Outcome of `command.spawn()` (line 51). -/
  spawn : Except IoError Unit
  /-- Outcome of reading the child's stderr to a string (lines 55-60). -/
  stderrRead : Except IoError String
  /-- Outcome of `child.wait()` (line 65): exit code and `status.success()`. -/
  waitResult : Except IoError (Option Int × Bool)
deriving Repr

/-- `Path::parent` (as a string), used for the output-directory error path:
the characters before the last `/`. -/
def parentDir (p : String) : String :=
  match (p.data.reverse.dropWhile fun c => c ≠ '/') with
  | [] => ""
  | _ :: rest => ⟨rest.reverse⟩

/-- `transcode_to_aac` from `features/upload/audio/transcode.rs`
(lines 19-82), with the external world abstracted by `TranscodeWorld`.
Note line 51: every spawn failure is mapped to `ProcessStartFailed` via
`TranscodingError::process_start_failed`, with no inspection of the error
kind. -/
def transcode_to_aac (w : TranscodeWorld) (input_path output_path : String) :
    Except TranscodingError Unit :=
  if !w.inputExists then
    .error (.InputFileNotFound input_path)
  else
    let dirStep : Except TranscodingError Unit :=
      if !w.parentDirExists then
        match w.createDirAll with
        | .error e =>
            .error (.OutputDirectoryCreationFailed (parentDir output_path) e.message)
        | .ok _ => .ok ()
      else .ok ()
    match dirStep with
    | .error e => .error e
    | .ok _ =>
      match w.spawn with
      | .error e => .error (.ProcessStartFailed e.message)
      | .ok _ =>
        match w.stderrRead with
        | .error e => .error (.StderrReadFailed e.message)
        | .ok stderr_output =>
          match w.waitResult with
          | .error e => .error (.IoError e.message)
          | .ok (code, success) =>
            if !success then
              .error (.ProcessExecutionFailed code stderr_output)
            else .ok ()

/-! ## Per-item state machine (`features/upload/mod.rs`, lines 282-412) -/

/-- Environment for processing one queue item: the outcomes of the external
calls the item provokes.  Upload and database error values carry the
`Display` string of the corresponding `UploadError`. -/
structure ItemEnv where
  /-- Outcome of `run_transcoding` (line 300): the persisted temp path on
  success (on failure the `NamedTempFile` is dropped and auto-deleted). -/
  transcodeResult : Except TranscodingError String
  /-- Outcome of `upload_file_to_r2` for the original (line 328). -/
  uploadOrigResult : Except String Unit
  /-- Outcome of `upload_file_to_r2` for the AAC sibling (line 354). -/
  uploadAacResult : Except String Unit
  /-- Outcome of `albums_collection.find_one` (line 487): the album id if a
  matching document exists. -/
  albumLookup : Except String (Option String)
  /-- Outcome of `albums_collection.insert_one` (line 505). -/
  albumInsert : Except String Unit
  /-- The fresh `ObjectId` generated for a new album (line 495). -/
  newAlbumId : String
  /-- The fresh `ObjectId` generated for the track (line 512), as hex. -/
  newTrackId : String
  /-- Outcome of `tracks_collection.insert_one` (line 539). -/
  trackInsert : Except String Unit
deriving Repr

/-- Display prefix of `UploadError::MongoDbError` ("MongoDB operation
failed: {0}"), applied by `store_track_metadata`'s error mapping. -/
def mongoDbError (m : String) : String := "MongoDB operation failed: " ++ m

/-- `store_track_metadata` from `features/upload/mod.rs` (lines 445-543),
at the granularity of its document-store calls: find album by
`(name, artist)` (with the source's defaults for absent metadata), insert
a fresh album document when none exists, then insert the track document.
Document payloads (title fallback, file size, mime type, ...) only
populate the inserted documents and are abstracted away.  Returns the
track id on success and the `UploadError` display string on failure,
together with the document-store calls performed. -/
def store_track_metadata (env : ItemEnv) (item : UploadQueueItem) :
    Except String String × List TraceEv :=
  let album_title := (item.metadata.album).getD "Unknown Album"
  let artist := (item.metadata.artist).getD "Unknown Artist"
  let findCall := TraceEv.callDocFindAlbum album_title artist
  match env.albumLookup with
  | .error e => (.error (mongoDbError ("Album lookup failed: " ++ e)), [findCall])
  | .ok (some _albumId) =>
    match env.trackInsert with
    | .error e =>
        (.error (mongoDbError ("Track insert failed: " ++ e)),
         [findCall, .callDocInsertTrack])
    | .ok _ => (.ok env.newTrackId, [findCall, .callDocInsertTrack])
  | .ok none =>
    match env.albumInsert with
    | .error e =>
        (.error (mongoDbError ("Album insert failed: " ++ e)),
         [findCall, .callDocInsertAlbum])
    | .ok _ =>
      match env.trackInsert with
      | .error e =>
          (.error (mongoDbError ("Track insert failed: " ++ e)),
           [findCall, .callDocInsertAlbum, .callDocInsertTrack])
      | .ok _ =>
          (.ok env.newTrackId, [findCall, .callDocInsertAlbum, .callDocInsertTrack])

/-- Original-object key derivation of the queue pipeline
(`features/upload/mod.rs`, line 327): prefix `tracks/original/` plus the
raw file name of the input path. -/
def originalKey (input_path : String) : String :=
  "tracks/original/" ++ fileName input_path

/-- AAC-object key derivation of the queue pipeline
(`features/upload/mod.rs`, line 353): prefix `tracks/aac/` plus the raw
file name of the temp transcoded path. -/
def aacKey (aac_path : String) : String :=
  "tracks/aac/" ++ fileName aac_path

/-- Result of processing one item: its final `UploadQueueItem` state, the
event trace, whether the drain loop `break`s (versus `continue`s), the temp
files persisted for the item, and the number of cancel-flag polls made. -/
structure ItemResult where
  item : UploadQueueItem
  trace : List TraceEv
  brk : Bool
  tempsCreated : List String
  polls : Nat
deriving Repr

/-- The StoringMetadata phase of the item state machine
(`features/upload/mod.rs`, lines 378-411): emit the status, call
`store_track_metadata`, poll the cancel flag (line 383), then either record
the track id and complete (deleting the temp file, lines 409-411), or emit
the error and run compensating cleanup. -/
def storeMetadataPhase (cancel : Nat → Bool) (kIdx : Nat) (env : ItemEnv)
    (item : UploadQueueItem) (pre : List TraceEv) (temps : List String)
    (pollsSoFar : Nat) : ItemResult :=
  let s := store_track_metadata env item
  let pre3 := pre ++ [TraceEv.emit .StoringMetadata none] ++ s.2
  if cancel kIdx then
    let item' :=
      match s.1 with
      | .ok tid => { item with db_track_id := some tid }
      | .error _ => item
    { item := item',
      trace := pre3 ++ [TraceEv.poll true, TraceEv.emit .Cancelled none] ++ perform_cleanup item',
      brk := true, tempsCreated := temps, polls := pollsSoFar + 1 }
  else
    match s.1 with
    | .ok tid =>
      let item' := { item with db_track_id := some tid }
      match item'.temp_aac_path with
      | some p =>
          { item := { item' with temp_aac_path := none },
            trace := pre3 ++ [TraceEv.poll false, TraceEv.emit .Complete none,
              TraceEv.tempFileDelete p],
            brk := false, tempsCreated := temps, polls := pollsSoFar + 1 }
      | none =>
          { item := item',
            trace := pre3 ++ [TraceEv.poll false, TraceEv.emit .Complete none],
            brk := false, tempsCreated := temps, polls := pollsSoFar + 1 }
    | .error e =>
      { item := item,
        trace := pre3 ++ [TraceEv.poll false,
          TraceEv.emit (.Error ("Metadata storage failed: " ++ e)) (some e)] ++
          perform_cleanup item,
        brk := false, tempsCreated := temps, polls := pollsSoFar + 1 }

/-- The per-item state machine, from the body of the `while` loop of
`process_upload_queue` (`features/upload/mod.rs`, lines 282-412).  `cancel`
is the value of the shared cancel flag at each successive poll; `k` is the
index of the item's first poll.  The trace mirrors the source order:
poll before starting work (line 289); Transcoding status then
`run_transcoding` (lines 297-300); poll after transcoding (line 302);
UploadingOriginal status, the original put, and the unconditional
assignment of `r2_original_key` (lines 324-329); poll (line 331);
UploadingAAC status, the AAC put, and the unconditional assignment of
`r2_aac_key` (lines 349-355); poll (line 357); the StoringMetadata phase
(lines 378-411). -/
def processItem (cancel : Nat → Bool) (k : Nat) (env : ItemEnv)
    (item0 : UploadQueueItem) : ItemResult :=
  if cancel k then
    { item := item0, trace := [.poll true, .emit .Cancelled none],
      brk := false, tempsCreated := [], polls := 1 }
  else
    let pre : List TraceEv :=
      [.poll false, .emit .Transcoding none, .callTranscodeSpawn item0.input_path]
    if cancel (k + 1) then
      match env.transcodeResult with
      | .ok p =>
          { item := item0,
            trace := pre ++ [.poll true, .emit .Cancelled none, .tempFileDelete p],
            brk := true, tempsCreated := [p], polls := 2 }
      | .error _ =>
          { item := item0,
            trace := pre ++ [.poll true, .emit .Cancelled none],
            brk := true, tempsCreated := [], polls := 2 }
    else
      match env.transcodeResult with
      | .error e =>
        { item := item0,
          trace := pre ++ [.poll false,
            .emit (.Error ("Transcoding failed: " ++ e.display)) (some e.display)],
          brk := false, tempsCreated := [], polls := 2 }
      | .ok temp_aac_path =>
        let item1 := { item0 with temp_aac_path := some temp_aac_path }
        let original_key := originalKey item1.input_path
        let item2 := { item1 with r2_original_key := some original_key }
        let pre2 := pre ++
          [.poll false, .emit .UploadingOriginal none, .callBlobPut original_key]
        if cancel (k + 2) then
          { item := item2,
            trace := pre2 ++ [.poll true, .emit .Cancelled none] ++ perform_cleanup item2,
            brk := true, tempsCreated := [temp_aac_path], polls := 3 }
        else
          match env.uploadOrigResult with
          | .error e =>
            { item := item2,
              trace := pre2 ++ [.poll false,
                .emit (.Error ("Original upload failed: " ++ e)) (some e)] ++
                perform_cleanup item2,
              brk := false, tempsCreated := [temp_aac_path], polls := 3 }
          | .ok _ =>
            match item2.temp_aac_path with
            | some aac_path =>
              let aac_key := aacKey aac_path
              let item3 := { item2 with r2_aac_key := some aac_key }
              let pre3 := pre2 ++
                [.poll false, .emit .UploadingAAC none, .callBlobPut aac_key]
              if cancel (k + 3) then
                { item := item3,
                  trace := pre3 ++ [.poll true, .emit .Cancelled none] ++
                    perform_cleanup item3,
                  brk := true, tempsCreated := [temp_aac_path], polls := 4 }
              else
                match env.uploadAacResult with
                | .error e =>
                  { item := item3,
                    trace := pre3 ++ [.poll false,
                      .emit (.Error ("AAC upload failed: " ++ e)) (some e)] ++
                      perform_cleanup item3,
                    brk := false, tempsCreated := [temp_aac_path], polls := 4 }
                | .ok _ =>
                  storeMetadataPhase cancel (k + 4) env item3
                    (pre3 ++ [.poll false]) [temp_aac_path] 4
            | none =>
              let item3 := { item2 with r2_aac_key := none }
              storeMetadataPhase cancel (k + 3) env item3
                (pre2 ++ [.poll false]) [temp_aac_path] 3

/-- Temp files persisted for the item and never deleted by the end of its
processing. -/
def tempsLive (r : ItemResult) : List String :=
  r.tempsCreated.filter fun p => !(r.trace.contains (TraceEv.tempFileDelete p))

/-! ## Drain loop and coordinator (`features/upload/mod.rs`, lines 146-282) -/

/-- Aggregate result of the drain loop. `remaining` holds the queued items
never pulled (because a `break` ended the loop); `blocked` is true when the
loop ends up parked in `rx.recv().await` with the queue empty while a
sender is still alive (tokio's `recv` returns `None` only once every
sender has been dropped). -/
structure DrainResult where
  trace : List (Nat × TraceEv)
  finals : List UploadQueueItem
  tempsCreated : List String
  remaining : List (ItemEnv × UploadQueueItem)
  blocked : Bool
deriving Repr

/-- The `while let Some(mut item) = rx.recv().await` loop of
`process_upload_queue` (lines 282-412) over the queued items, with each
item's trace tagged by its id. -/
def drainLoop (cancel : Nat → Bool) (k : Nat) (senderAlive : Bool) :
    List (ItemEnv × UploadQueueItem) → DrainResult
  | [] =>
      { trace := [], finals := [], tempsCreated := [], remaining := [],
        blocked := senderAlive }
  | (env, item) :: rest =>
    let r := processItem cancel k env item
    let tagged := r.trace.map fun ev => (item.id, ev)
    if r.brk then
      { trace := tagged, finals := [r.item], tempsCreated := r.tempsCreated,
        remaining := rest, blocked := false }
    else
      let d := drainLoop cancel (k + r.polls) senderAlive rest
      { trace := tagged ++ d.trace, finals := r.item :: d.finals,
        tempsCreated := r.tempsCreated ++ d.tempsCreated,
        remaining := d.remaining, blocked := d.blocked }

/-- Events delivered to the UI window: per-item status updates
(`upload://status-update`) and the batch-done signal
(`upload://queue-finished`). -/
inductive UiEvent where
  | statusUpdate (itemId : Nat) (status : UploadStatus) (errMsg : Option String)
  | queueFinished
deriving DecidableEq, Repr

/-- The status-update events carried by a drain trace. -/
def uiEventsOfTrace (t : List (Nat × TraceEv)) : List UiEvent :=
  t.filterMap fun p =>
    match p.2 with
    | .emit s m => some (.statusUpdate p.1 s m)
    | _ => none

/-- Outcome of the task spawned at `features/upload/mod.rs` lines 219-236:
run `process_upload_queue`; when (and only when) it returns, clear
`is_processing` and emit `upload://queue-finished`.  A drain parked in
`rx.recv().await` never returns, so neither happens. -/
structure TaskOutcome where
  uiEvents : List UiEvent
  isProcessingCleared : Bool
  drain : DrainResult
deriving Repr

/-- Run the spawned drain task over the queued items. -/
def runDrainTask (cancel : Nat → Bool) (senderAlive : Bool)
    (queue : List (ItemEnv × UploadQueueItem)) : TaskOutcome :=
  let d := drainLoop cancel 0 senderAlive queue
  if d.blocked then
    { uiEvents := uiEventsOfTrace d.trace, isProcessingCleared := false, drain := d }
  else
    { uiEvents := uiEventsOfTrace d.trace ++ [.queueFinished],
      isProcessingCleared := true, drain := d }

/-- Environment for one `start_upload_queue` call. -/
structure AdmissionEnv where
  /-- `r2_state.client` is `Some` (line 155). -/
  r2Initialized : Bool
  /-- `mongo_state.client` is `Some` (line 156). -/
  mongoInitialized : Bool
  /-- `input_path.exists()` (line 166). -/
  pathExists : String → Bool
  /-- Whether the queue receiver is still alive: `queue_tx.send` (line 187)
  fails exactly when the receiver has been dropped. -/
  receiverAlive : Bool
  /-- The fresh `Uuid::new_v4()` assigned to the item at batch position `i`
  (line 163). -/
  freshId : Nat → Nat

/-- The `UploadQueueItem` built at admission (lines 182-185): fresh id,
input path and metadata snapshot, all four cleanup fields `None`. -/
def admittedItem (env : AdmissionEnv) (i : Nat) (inp : UploadItemInput) :
    UploadQueueItem :=
  { id := env.freshId i, input_path := inp.path, metadata := inp.metadata,
    temp_aac_path := none, r2_original_key := none, r2_aac_key := none,
    db_track_id := none }

/-- Admission of a single batch item (`features/upload/mod.rs`,
lines 162-211): a missing input path yields an immediate terminal
`Error("File not found")` without enqueueing; a failed `queue_tx.send`
yields `Error("Failed to queue")`; otherwise the item is enqueued with all
four cleanup fields `None` and a `Pending` update is emitted.  (The same
progress value is also inserted into the shared progress map.) -/
def admitItem (env : AdmissionEnv) (i : Nat) (inp : UploadItemInput) :
    UiEvent × Option UploadQueueItem :=
  let item_id := env.freshId i
  if !env.pathExists inp.path then
    (.statusUpdate item_id (.Error "File not found")
       (some "Input file does not exist."), none)
  else if !env.receiverAlive then
    (.statusUpdate item_id (.Error "Failed to queue")
       (some "Failed to add item to queue: channel closed"), none)
  else
    (.statusUpdate item_id .Pending none, some (admittedItem env i inp))

/-- The admission phase of `start_upload_queue` (`features/upload/mod.rs`,
lines 146-212): precondition checks (initialized clients, non-empty batch)
then per-item admission.  Returns the emitted status updates and the
enqueued items.  The cancel flag is cleared before the loop (line 159). -/
def start_upload_queue (env : AdmissionEnv) (items : List UploadItemInput) :
    Except String (List UiEvent × List UploadQueueItem) :=
  if !env.r2Initialized then
    .error "R2 client not initialized. Configure credentials."
  else if !env.mongoInitialized then
    .error "MongoDB client not initialized. Configure credentials."
  else if items.isEmpty then
    .error "Invalid input: No items provided for upload."
  else
    let outs := items.enum.map fun p => admitItem env p.1 p.2
    .ok (outs.map Prod.fst, outs.filterMap Prod.snd)

/-- The coordinator state carried by `UploadState`
(`features/upload/mod.rs`, lines 120-141): whether the `queue_rx` option
slot still holds the receiver, whether the receiver is still alive
(not yet dropped by a returned drain task), and the `is_processing`
marker.  The cancel flag is modelled by the poll oracle given to each
drain run. -/
structure CoordState where
  rxPresent : Bool
  receiverAlive : Bool
  isProcessing : Bool
deriving DecidableEq, Repr

/-- `UploadState::new` (lines 130-141): receiver stored in the option
slot, not processing. -/
def initialCoordState : CoordState :=
  { rxPresent := true, receiverAlive := true, isProcessing := false }

/-- Result of one `start_upload_queue` call together with its spawned
drain task (if any) run to quiescence. -/
structure BatchRunResult where
  admissionError : Option String
  events : List UiEvent
  drainTrace : List (Nat × TraceEv)
  state : CoordState
deriving Repr

/-- One `start_upload_queue` call (lines 146-241) followed by the spawned
task run to quiescence.  If `is_processing` was already set, the CAS at
line 214 fails and no task is spawned (new items would be picked up by the
live drain; that continuation is not needed by the claims below and is not
modelled here).  Otherwise the task takes the receiver from the option
slot (line 220): if the slot is empty it resets the marker and still emits
`queue-finished` (lines 225-235); if the drain blocks in `rx.recv()` it
never returns, keeping the receiver and the marker; if the drain returns,
the receiver is dropped, the marker cleared and `queue-finished` emitted. -/
def runBatch (st : CoordState) (env : AdmissionEnv) (items : List UploadItemInput)
    (cancel : Nat → Bool) (itemEnvs : List ItemEnv) : BatchRunResult :=
  let env' := { env with receiverAlive := st.receiverAlive }
  match start_upload_queue env' items with
  | .error e =>
      { admissionError := some e, events := [], drainTrace := [], state := st }
  | .ok (adEvents, queued) =>
    if st.isProcessing then
      { admissionError := none, events := adEvents, drainTrace := [], state := st }
    else if st.rxPresent then
      -- `queue_tx` is a field of the long-lived `UploadState` (line 122) and
      -- is never dropped, so from the drain's point of view a sender is
      -- always alive: `rx.recv()` can block but never yields `None`.
      let t := runDrainTask cancel true (itemEnvs.zip queued)
      if t.drain.blocked then
        { admissionError := none, events := adEvents ++ t.uiEvents,
          drainTrace := t.drain.trace,
          state := { rxPresent := false, receiverAlive := st.receiverAlive,
                     isProcessing := true } }
      else
        { admissionError := none, events := adEvents ++ t.uiEvents,
          drainTrace := t.drain.trace,
          state := { rxPresent := false, receiverAlive := false,
                     isProcessing := false } }
    else
      { admissionError := none, events := adEvents ++ [.queueFinished],
        drainTrace := [],
        state := { rxPresent := false, receiverAlive := st.receiverAlive,
                   isProcessing := false } }

/-! ## Legacy key derivation (`upload.rs`, lines 237-257) and the spec's
sanitization rule -/

/-- `sanitized_file_name` from the legacy `upload.rs` (line 254):
`file_name.replace(" ", "_")` replaces every space character by `_` (a
single-character pattern, so a per-character map). -/
def sanitized_file_name (file_name : String) : String :=
  ⟨file_name.data.map fun c => if c = ' ' then '_' else c⟩

/-- The original-object path built by `process_track_upload` in the legacy
`upload.rs` (line 257). -/
def original_r2_path ( original_prefix file_name : String) : String :=
  original_prefix ++ "/" ++ sanitized_file_name file_name

/-- Default `UploadPathConfig::original_prefix` (`upload.rs`, line 58). -/
def defaultOriginalPrefix : String := "tracks/original"

/-- Split a file name into stem and extension at the last dot, as the
spec's sanitization rule reads it. -/
def splitExt (name : String) : String × Option String :=
  let r := name.data.reverse
  let extRev := r.takeWhile fun c => c ≠ '.'
  if extRev.length = name.data.length then (name, none)
  else (⟨(r.drop (extRev.length + 1)).reverse⟩, some ⟨extRev.reverse⟩)

/-- Modelled from the spec (§6): "replace whitespace and `.` within the
stem with `_`; keep the extension intact."  Stated only to compare the
spec's sanitization rule with the code's key derivations. -/
def spec_sanitize (name : String) : String :=
  let se := splitExt name
  let stem' : String :=
    ⟨se.1.data.map fun c => if c.isWhitespace || c = '.' then '_' else c⟩
  match se.2 with
  | some e => stem' ++ "." ++ e
  | none => stem'

/-! ## Trace observations -/

/-- Number of cancel-flag polls in a trace. -/
def pollCount (l : List TraceEv) : Nat :=
  (l.filter fun ev =>
    match ev with
    | .poll _ => true
    | _ => false).length

/-- The last emitted status of a trace (the item's terminal progress
status once processing of the item has ended). -/
def terminalStatus (l : List TraceEv) : Option UploadStatus :=
  (l.filterMap fun ev =>
    match ev with
    | .emit s _ => some s
    | _ => none).getLast?

/-- Calls that initiate new external work: a transcode spawn, a blob put,
or a document insert (the calls cancellation must prevent; cleanup deletes
are not among them). -/
def isInitCall : TraceEv → Bool
  | .callTranscodeSpawn _ => true
  | .callBlobPut _ => true
  | .callDocInsertAlbum => true
  | .callDocInsertTrack => true
  | _ => false

/-- Whether the event is a poll that observed the cancel flag set. -/
def isTruePoll : TraceEv → Bool
  | .poll b => b
  | _ => false

/-- Scans a trace left to right; `seen` records whether some poll has
already observed the cancel flag set.  Returns `false` exactly when an
initiating external call occurs after such a poll. -/
def noInitAfter (seen : Bool) : List TraceEv → Bool
  | [] => true
  | ev :: rest =>
    if seen && isInitCall ev then false
    else noInitAfter (seen || isTruePoll ev) rest

/-- `seen` after scanning `l`: whether `seen` was already set or some poll
in `l` observed the flag set. -/
def seenAfter (seen : Bool) (l : List TraceEv) : Bool :=
  seen || l.any isTruePoll

/-! ## Concrete test fixtures (the spec's scenario S1 inputs) -/

/-- Metadata of scenario S1: `{title:"Track A", artist:"X", album:"Alb",
year:2020}`. -/
def mdA : UploadItemMetadata :=
  { title := some "Track A", artist := some "X", album := some "Alb",
    track_number := none, duration_sec := none, genre := none,
    composer := none, year := some 2020, comments := none }

/-- Caller-supplied batch item for `/tmp/in/Track A.wav`. -/
def inpA : UploadItemInput :=
  { id := "client-1", path := "/tmp/in/Track A.wav", metadata := mdA }

/-- Second batch item, used by multi-item scenarios. -/
def inpB : UploadItemInput :=
  { id := "client-2", path := "/tmp/in/b.wav", metadata := mdA }

/-- The queue item admitted for `inpA` (id 0, cleanup fields unset). -/
def itemA : UploadQueueItem :=
  { id := 0, input_path := "/tmp/in/Track A.wav", metadata := mdA,
    temp_aac_path := none, r2_original_key := none, r2_aac_key := none,
    db_track_id := none }

/-- The queue item admitted for `inpB` (id 1, cleanup fields unset). -/
def itemB : UploadQueueItem :=
  { id := 1, input_path := "/tmp/in/b.wav", metadata := mdA,
    temp_aac_path := none, r2_original_key := none, r2_aac_key := none,
    db_track_id := none }

/-- Stub outcomes in which every external call succeeds: the transcoder
writes `/tmp/transcoded_1.m4a`, both puts succeed, no album exists yet and
both document inserts succeed. -/
def envHappy : ItemEnv :=
  { transcodeResult := .ok "/tmp/transcoded_1.m4a",
    uploadOrigResult := .ok (), uploadAacResult := .ok (),
    albumLookup := .ok none, albumInsert := .ok (),
    newAlbumId := "alb1", newTrackId := "trk1", trackInsert := .ok () }

/-- Admission environment with initialized clients, every path present and
a live receiver; ids are assigned by batch position. -/
def happyAdmissionEnv : AdmissionEnv :=
  { r2Initialized := true, mongoInitialized := true,
    pathExists := fun _ => true, receiverAlive := true, freshId := fun i => i }

/-- A queue item on which every side effect has been recorded (all four
cleanup fields populated). -/
def cexItemAll : UploadQueueItem :=
  { id := 0, input_path := "/tmp/in/Track A.wav", metadata := mdA,
    temp_aac_path := some "/tmp/t.m4a",
    r2_original_key := some "tracks/original/Track A.wav",
    r2_aac_key := some "tracks/aac/t.m4a", db_track_id := some "id1" }

/-- Stub outcomes of scenario S2: the transcoder process exits with code 1
and stderr `bad input`; everything else would succeed. -/
def envTransFail : ItemEnv :=
  { envHappy with
    transcodeResult := .error (.ProcessExecutionFailed (some 1) "bad input") }

/-- Stub outcomes in which the original-blob put fails. -/
def envOrigFail : ItemEnv :=
  { envHappy with
    uploadOrigResult := .error "R2 upload failed: S3 PutObject failed: boom" }

/-- A cancel-flag history that is clear at the first poll and set from the
second poll on (the flag is set while the first item is transcoding). -/
def cancelFrom1 : Nat → Bool := fun n => decide (1 ≤ n)

/-- Whether a trace event deletes an album document. -/
def isAlbumDelete : TraceEv → Bool
  | .callDocDeleteAlbum _ => true
  | _ => false

/-- A batch item whose input path does not exist on disk. -/
def inpM : UploadItemInput :=
  { id := "client-m", path := "/tmp/in/missing.wav", metadata := mdA }

/-- Admission environment in which every path except `inpM`'s exists. -/
def missAdmissionEnv : AdmissionEnv :=
  { r2Initialized := true, mongoInitialized := true,
    pathExists := fun p => p != "/tmp/in/missing.wav",
    receiverAlive := true, freshId := fun i => i }

/-! ## Theorems -/

set_option maxHeartbeats 4000000

/-- C1: on the happy path (one admitted item, all stubs succeed, no
cancellation) the item is fully processed, yet the drain task never exits:
`rx.recv().await` blocks because `queue_tx` is stored in `UploadState` and
never dropped, so no `upload://queue-finished` event is emitted and
`is_processing` is never cleared — contradicting the claim that the drain
exits when the queue is empty and emits batch-done exactly once per
`submit_batch`. -/
theorem C1_drain_blocks_and_no_batch_done :
    (0, TraceEv.emit .Complete none) ∈
      (runBatch initialCoordState happyAdmissionEnv [inpA]
        (fun _ => false) [envHappy]).drainTrace ∧
    (runBatch initialCoordState happyAdmissionEnv [inpA]
        (fun _ => false) [envHappy]).state.isProcessing = true ∧
    UiEvent.queueFinished ∉
      (runBatch initialCoordState happyAdmissionEnv [inpA]
        (fun _ => false) [envHappy]).events := by
  decide

/-- Helper for C2: the final `temp_aac_path` is populated only with the
path the transcoder actually produced. -/
theorem processItem_temp_some (cancel : Nat → Bool) (k : Nat) (env : ItemEnv)
    (item0 : UploadQueueItem) (h1 : item0.temp_aac_path = none) (p : String)
    (h : (processItem cancel k env item0).item.temp_aac_path = some p) :
    env.transcodeResult = .ok p := by
  simp only [processItem, storeMetadataPhase, store_track_metadata] at h
  repeat' split at h
  all_goals simp_all

/-- Helper for C2: the final `db_track_id` is populated only when the track
insert succeeded, and then with the generated track id. -/
theorem processItem_track_some (cancel : Nat → Bool) (k : Nat) (env : ItemEnv)
    (item0 : UploadQueueItem) (h4 : item0.db_track_id = none) (tid : String)
    (h : (processItem cancel k env item0).item.db_track_id = some tid) :
    env.trackInsert = .ok () ∧ tid = env.newTrackId := by
  simp only [processItem, storeMetadataPhase, store_track_metadata] at h
  repeat' split at h
  all_goals simp_all

/-- Helper for C2: `r2_original_key` is populated exactly when the
corresponding put call was made (whether or not it succeeded). -/
theorem processItem_okey_some (cancel : Nat → Bool) (k : Nat) (env : ItemEnv)
    (item0 : UploadQueueItem) (h2 : item0.r2_original_key = none) (key : String)
    (h : (processItem cancel k env item0).item.r2_original_key = some key) :
    TraceEv.callBlobPut key ∈ (processItem cancel k env item0).trace := by
  simp only [processItem, storeMetadataPhase, store_track_metadata] at h ⊢
  repeat' split at h
  all_goals simp_all [perform_cleanup]

/-- Helper for C2: `r2_aac_key` is populated exactly when the corresponding
put call was made (whether or not it succeeded). -/
theorem processItem_akey_some (cancel : Nat → Bool) (k : Nat) (env : ItemEnv)
    (item0 : UploadQueueItem) (h3 : item0.r2_aac_key = none) (key : String)
    (h : (processItem cancel k env item0).item.r2_aac_key = some key) :
    TraceEv.callBlobPut key ∈ (processItem cancel k env item0).trace := by
  simp only [processItem, storeMetadataPhase, store_track_metadata] at h ⊢
  repeat' split at h
  all_goals simp_all [perform_cleanup]

/-- C2 (counterexample): when the original-blob put fails, the item leaves
processing with `r2_original_key = Some(key)` — the key is assigned at
line 329 before the outcome of the put is examined — and cleanup then
issues a delete for the never-committed object.  This refutes "after a
failed blob put the corresponding key field is still None". -/
theorem C2_counterexample_key_some_after_failed_put :
    (processItem (fun _ => false) 0 envOrigFail itemA).item.r2_original_key =
      some "tracks/original/Track A.wav" ∧
    (processItem (fun _ => false) 0 envOrigFail itemA).item.r2_original_key ≠ none ∧
    envOrigFail.uploadOrigResult ≠ .ok () ∧
    TraceEv.callBlobDelete "tracks/original/Track A.wav" ∈
      (processItem (fun _ => false) 0 envOrigFail itemA).trace := by
  decide

/-- C2 (amended): for an item admitted with all four cleanup fields unset,
`temp_aac_path` and `db_track_id` are `Some` only when the corresponding
side effect was committed (transcode produced that path; the track insert
succeeded and returned that id), while the two object-store key fields are
`Some(key)` exactly when the corresponding put was *attempted*: the key is
recorded before the put's outcome is examined, so it may be `Some` after a
failed put. -/
theorem C2_cleanup_fields_invariant :
    ∀ (cancel : Nat → Bool) (k : Nat) (env : ItemEnv) (item0 : UploadQueueItem),
      item0.temp_aac_path = none → item0.r2_original_key = none →
      item0.r2_aac_key = none → item0.db_track_id = none →
      ((∀ p, (processItem cancel k env item0).item.temp_aac_path = some p →
          env.transcodeResult = .ok p) ∧
       (∀ tid, (processItem cancel k env item0).item.db_track_id = some tid →
          env.trackInsert = .ok () ∧ tid = env.newTrackId) ∧
       (∀ key, (processItem cancel k env item0).item.r2_original_key = some key →
          TraceEv.callBlobPut key ∈ (processItem cancel k env item0).trace) ∧
       (∀ key, (processItem cancel k env item0).item.r2_aac_key = some key →
          TraceEv.callBlobPut key ∈ (processItem cancel k env item0).trace)) := by
  intro cancel k env item0 h1 h2 h3 h4
  exact ⟨fun p h => processItem_temp_some cancel k env item0 h1 p h,
         fun tid h => processItem_track_some cancel k env item0 h4 tid h,
         fun key h => processItem_okey_some cancel k env item0 h2 key h,
         fun key h => processItem_akey_some cancel k env item0 h3 key h⟩

/-- C2 (witness): the invariant instantiated at the failed-original-put
run from item `itemA`. -/
theorem C2_invariant_witness :
    (∀ p, (processItem (fun _ => false) 0 envOrigFail itemA).item.temp_aac_path = some p →
        envOrigFail.transcodeResult = .ok p) ∧
    (∀ tid, (processItem (fun _ => false) 0 envOrigFail itemA).item.db_track_id = some tid →
        envOrigFail.trackInsert = .ok () ∧ tid = envOrigFail.newTrackId) ∧
    (∀ key, (processItem (fun _ => false) 0 envOrigFail itemA).item.r2_original_key = some key →
        TraceEv.callBlobPut key ∈ (processItem (fun _ => false) 0 envOrigFail itemA).trace) ∧
    (∀ key, (processItem (fun _ => false) 0 envOrigFail itemA).item.r2_aac_key = some key →
        TraceEv.callBlobPut key ∈ (processItem (fun _ => false) 0 envOrigFail itemA).trace) :=
  C2_cleanup_fields_invariant (fun _ => false) 0 envOrigFail itemA rfl rfl rfl rfl

/-- C3 (counterexample): on an item with all four side effects recorded,
`perform_cleanup` deletes the temp file first, then the original blob, then
the compressed blob, then the track document — not the claimed order
(track document, compressed blob, original blob, temp file). -/
theorem C3_counterexample_cleanup_order :
    perform_cleanup cexItemAll =
      [TraceEv.tempFileDelete "/tmp/t.m4a",
       TraceEv.callBlobDelete "tracks/original/Track A.wav",
       TraceEv.callBlobDelete "tracks/aac/t.m4a",
       TraceEv.callDocDeleteTrack "id1"] ∧
    perform_cleanup cexItemAll ≠
      [TraceEv.callDocDeleteTrack "id1",
       TraceEv.callBlobDelete "tracks/aac/t.m4a",
       TraceEv.callBlobDelete "tracks/original/Track A.wav",
       TraceEv.tempFileDelete "/tmp/t.m4a"] := by
  decide

/-- C3 (amended): compensating cleanup undoes exactly the recorded side
effects in the source's order — local temp file, original blob, compressed
blob, inserted track document — and never deletes an album document. -/
theorem C3_cleanup_order_and_album_preserved :
    (∀ (n : Nat) (path : String) (md : UploadItemMetadata) (p ko ka tid : String),
        perform_cleanup ⟨n, path, md, some p, some ko, some ka, some tid⟩ =
          [TraceEv.tempFileDelete p, TraceEv.callBlobDelete ko,
           TraceEv.callBlobDelete ka, TraceEv.callDocDeleteTrack tid]) ∧
    (∀ (item : UploadQueueItem),
        (perform_cleanup item).all (fun ev => !isAlbumDelete ev) = true) := by
  constructor
  · intro n path md p ko ka tid
    simp [perform_cleanup]
  · intro item
    rcases item with ⟨n, path, md, t, o, a, d⟩
    cases t <;> cases o <;> cases a <;> cases d <;>
      simp [perform_cleanup, isAlbumDelete]

/-- C6 (counterexample): the queue pipeline derives the original-object key
from the raw basename with no sanitization, so for input
`/tmp/in/Track A.wav` it puts to `tracks/original/Track A.wav`, not to the
claimed `tracks/original/Track_A.wav`. -/
theorem C6_counterexample_key_not_sanitized :
    TraceEv.callBlobPut "tracks/original/Track A.wav" ∈
      (processItem (fun _ => false) 0 envHappy itemA).trace ∧
    (processItem (fun _ => false) 0 envHappy itemA).item.r2_original_key =
      some "tracks/original/Track A.wav" ∧
    originalKey "/tmp/in/Track A.wav" ≠ "tracks/original/Track_A.wav" ∧
    TraceEv.callBlobPut "tracks/original/Track_A.wav" ∉
      (processItem (fun _ => false) 0 envHappy itemA).trace := by
  decide

/-- C6 (amended): the queue pipeline (`process_upload_queue`, line 327)
uses the raw basename — for `/tmp/in/Track A.wav` the key is
`tracks/original/Track A.wav`; only the legacy `process_track_upload`
helper (`upload.rs`, lines 253-257, not called by the queue pipeline)
sanitizes, and it replaces just the space character — yielding
`tracks/original/Track_A.wav` for that input but leaving `.` in the stem
untouched, unlike the spec's sanitization rule. -/
theorem C6_key_derivation :
    originalKey "/tmp/in/Track A.wav" = "tracks/original/Track A.wav" ∧
    original_r2_path defaultOriginalPrefix "Track A.wav" =
      "tracks/original/Track_A.wav" ∧
    sanitized_file_name "Track.B.wav" = "Track.B.wav" ∧
    spec_sanitize "Track.B.wav" = "Track_B.wav" ∧
    sanitized_file_name "Track.B.wav" ≠ spec_sanitize "Track.B.wav" := by
  decide

/-- C7 (counterexample): when the transcoder exits with code 1 and stderr
`bad input`, the terminal status message is
`Transcoding failed: FFmpeg execution failed. Exit code: Some(1). Stderr: bad input`
(from the `thiserror` display attribute), not the claimed
`Transcoding failed: ExecFailed(Some(1), "bad input")`. -/
theorem C7_counterexample_error_message_format :
    terminalStatus (processItem (fun _ => false) 0 envTransFail itemA).trace =
      some (.Error
        "Transcoding failed: FFmpeg execution failed. Exit code: Some(1). Stderr: bad input") ∧
    terminalStatus (processItem (fun _ => false) 0 envTransFail itemA).trace ≠
      some (.Error "Transcoding failed: ExecFailed(Some(1), \"bad input\")") := by
  decide

/-- C7 (amended): if transcoding fails with error `e` (and no cancellation
is observed), the item's whole trace is: poll, Transcoding status, the
transcode call, poll, then the terminal
`Error("Transcoding failed: <display of e>")` — so no blob put, no
document call and no cleanup delete occur for the item, no temp file
remains, the queue item is unchanged, and the drain continues with the
next item. -/
theorem C7_transcode_failure_behavior :
    ∀ (cancel : Nat → Bool) (k : Nat) (env : ItemEnv) (item : UploadQueueItem)
      (e : TranscodingError),
      cancel k = false → cancel (k + 1) = false →
      env.transcodeResult = .error e →
      (processItem cancel k env item).trace =
        [.poll false, .emit .Transcoding none,
         .callTranscodeSpawn item.input_path, .poll false,
         .emit (.Error ("Transcoding failed: " ++ e.display)) (some e.display)] ∧
      tempsLive (processItem cancel k env item) = [] ∧
      (processItem cancel k env item).item = item ∧
      (processItem cancel k env item).brk = false := by
  intro cancel k env item e h0 h1 he
  simp [processItem, tempsLive, h0, h1, he]

/-- C7 (witness): the failure behaviour instantiated at the S2 stub
(exit code 1, stderr `bad input`) on item `itemA`. -/
theorem C7_transcode_failure_witness :
    (processItem (fun _ => false) 0 envTransFail itemA).trace =
      [.poll false, .emit .Transcoding none,
       .callTranscodeSpawn itemA.input_path, .poll false,
       .emit (.Error ("Transcoding failed: " ++
          (TranscodingError.ProcessExecutionFailed (some 1) "bad input").display))
         (some (TranscodingError.ProcessExecutionFailed (some 1) "bad input").display)] ∧
    tempsLive (processItem (fun _ => false) 0 envTransFail itemA) = [] ∧
    (processItem (fun _ => false) 0 envTransFail itemA).item = itemA ∧
    (processItem (fun _ => false) 0 envTransFail itemA).brk = false :=
  C7_transcode_failure_behavior (fun _ => false) 0 envTransFail itemA
    (.ProcessExecutionFailed (some 1) "bad input") rfl rfl rfl

/-- C8 (counterexample): a spawn failure whose io-error kind is `NotFound`
is mapped to `ProcessStartFailed` (line 51 maps every spawn error through
`TranscodingError::process_start_failed`), not to the dedicated
`FFmpegNotFound` variant. -/
theorem C8_counterexample_notfound_not_mapped :
    transcode_to_aac
        ⟨true, true, .ok (), .error ⟨.notFound, "entity not found"⟩,
         .ok "", .ok (none, true)⟩ "/a/in.wav" "/tmp/out.m4a" =
      .error (.ProcessStartFailed "entity not found") ∧
    transcode_to_aac
        ⟨true, true, .ok (), .error ⟨.notFound, "entity not found"⟩,
         .ok "", .ok (none, true)⟩ "/a/in.wav" "/tmp/out.m4a" ≠
      .error .FFmpegNotFound := by
  decide

/-- C8 (amended): `transcode_to_aac` never returns `FFmpegNotFound` — the
variant is declared but unreachable — and every spawn failure, whatever
its io-error kind, is returned as `ProcessStartFailed` with the error's
message. -/
theorem C8_spawn_failure_mapping :
    (∀ (w : TranscodeWorld) (i o : String),
        transcode_to_aac w i o ≠ .error .FFmpegNotFound) ∧
    (∀ (w : TranscodeWorld) (i o : String) (e : IoError),
        w.inputExists = true → w.parentDirExists = true →
        w.spawn = .error e →
        transcode_to_aac w i o = .error (.ProcessStartFailed e.message)) := by
  constructor
  · intro w i o
    simp only [transcode_to_aac]
    repeat' split
    all_goals try simp
    all_goals (rename_i heq; repeat' split at heq)
    all_goals try simp_all
    all_goals (rw [← heq]; simp)
  · intro w i o e hin hpar hsp
    simp [transcode_to_aac, hin, hpar, hsp]

/-- C4 (counterexample): two items are admitted; the cancel flag is
observed set at the first item's post-transcode checkpoint, so the drain
`break`s.  `upload://queue-finished` is still emitted, but the remaining
queued item (id 1) receives *no* further progress event — in particular it
never reaches a terminal `Cancelled` — refuting "every remaining queued
item of the batch reaches a terminal Cancelled progress event".  (Its only
event is the admission-time `Pending`.) -/
theorem C4_counterexample_remaining_item_not_cancelled :
    (runBatch initialCoordState happyAdmissionEnv [inpA, inpB] cancelFrom1
        [envHappy, envHappy]).drainTrace.all (fun p => p.1 = 0) = true ∧
    UiEvent.statusUpdate 1 .Pending none ∈
      (runBatch initialCoordState happyAdmissionEnv [inpA, inpB] cancelFrom1
        [envHappy, envHappy]).events ∧
    UiEvent.statusUpdate 1 .Cancelled none ∉
      (runBatch initialCoordState happyAdmissionEnv [inpA, inpB] cancelFrom1
        [envHappy, envHappy]).events ∧
    UiEvent.queueFinished ∈
      (runBatch initialCoordState happyAdmissionEnv [inpA, inpB] cancelFrom1
        [envHappy, envHappy]).events := by
  decide

/-- C4 (amended): when cancellation is observed mid-item (the item's
processing ends with `break`), the drain stops without pulling any further
queued item: the drain trace is exactly the broken item's trace (so no
side effect and no progress event occurs for any remaining item), the
remaining queue is left untouched, and — because the loop was exited
rather than parked in `recv` — the task returns, emitting
`upload://queue-finished` and clearing `is_processing`. -/
theorem C4_break_stops_drain :
    ∀ (cancel : Nat → Bool) (senderAlive : Bool) (env : ItemEnv)
      (item : UploadQueueItem) (rest : List (ItemEnv × UploadQueueItem)),
      (processItem cancel 0 env item).brk = true →
      (runDrainTask cancel senderAlive ((env, item) :: rest)).drain.remaining = rest ∧
      (runDrainTask cancel senderAlive ((env, item) :: rest)).drain.trace =
        (processItem cancel 0 env item).trace.map (fun ev => (item.id, ev)) ∧
      (runDrainTask cancel senderAlive ((env, item) :: rest)).uiEvents =
        uiEventsOfTrace
          ((processItem cancel 0 env item).trace.map (fun ev => (item.id, ev))) ++
          [UiEvent.queueFinished] ∧
      (runDrainTask cancel senderAlive ((env, item) :: rest)).isProcessingCleared =
        true := by
  intro cancel senderAlive env item rest h
  simp [runDrainTask, drainLoop, h]

/-- C4 (witness): the break behaviour instantiated at the two-item
scenario in which the flag is set during the first item's transcode. -/
theorem C4_break_stops_drain_witness :
    (runDrainTask cancelFrom1 true [(envHappy, itemA), (envHappy, itemB)]).drain.remaining =
      [(envHappy, itemB)] ∧
    (runDrainTask cancelFrom1 true [(envHappy, itemA), (envHappy, itemB)]).drain.trace =
      (processItem cancelFrom1 0 envHappy itemA).trace.map (fun ev => (itemA.id, ev)) ∧
    (runDrainTask cancelFrom1 true [(envHappy, itemA), (envHappy, itemB)]).uiEvents =
      uiEventsOfTrace
        ((processItem cancelFrom1 0 envHappy itemA).trace.map (fun ev => (itemA.id, ev))) ++
        [UiEvent.queueFinished] ∧
    (runDrainTask cancelFrom1 true [(envHappy, itemA), (envHappy, itemB)]).isProcessingCleared =
      true :=
  C4_break_stops_drain cancelFrom1 true envHappy itemA [(envHappy, itemB)] (by decide)

/-- Scanning an appended trace: the left part is scanned with the incoming
`seen`, the right part with `seen` updated by the left part's polls. -/
theorem noInitAfter_append (seen : Bool) (a b : List TraceEv) :
    noInitAfter seen (a ++ b) =
      (noInitAfter seen a && noInitAfter (seenAfter seen a) b) := by
  induction a generalizing seen with
  | nil => simp [noInitAfter, seenAfter]
  | cons ev rest ih =>
    simp only [List.cons_append, noInitAfter]
    by_cases h : seen && isInitCall ev
    · simp [h]
    · simp [h, ih, seenAfter, List.any_cons, Bool.or_assoc]

/-- A trace clean under `seen = true` (no initiating call at all) is clean
under any incoming `seen`. -/
theorem noInitAfter_weaken (l : List TraceEv) :
    ∀ seen, noInitAfter true l = true → noInitAfter seen l = true := by
  induction l with
  | nil => intro seen _; simp [noInitAfter]
  | cons ev rest ih =>
    intro seen h
    have hev : isInitCall ev = false := by
      by_contra hc
      simp only [Bool.not_eq_false] at hc
      simp [noInitAfter, hc] at h
    have hrest : noInitAfter true rest = true := by
      simpa [noInitAfter, hev] using h
    cases seen
    · have hstep : noInitAfter false (ev :: rest) = noInitAfter (isTruePoll ev) rest := rfl
      rw [hstep]
      cases hp : isTruePoll ev
      · exact ih false hrest
      · exact hrest
    · exact h

/-- A trace in which no poll observed the flag set is clean when scanned
from `seen = false`. -/
theorem noInitAfter_false_of_no_true_poll (l : List TraceEv)
    (h : l.any isTruePoll = false) : noInitAfter false l = true := by
  induction l with
  | nil => simp [noInitAfter]
  | cons ev rest ih =>
    simp only [List.any_cons, Bool.or_eq_false_iff] at h
    have hstep : noInitAfter false (ev :: rest) = noInitAfter (isTruePoll ev) rest := rfl
    rw [hstep, h.1]
    exact ih h.2

/-- Helper for C5: within one item, no transcode spawn, blob put, or
document insert is initiated after a poll has observed the cancel flag
set. -/
theorem processItem_noInit (cancel : Nat → Bool) (k : Nat) (env : ItemEnv)
    (item : UploadQueueItem) :
    noInitAfter (cancel k) (processItem cancel k env item).trace = true := by
  obtain ⟨n, p0, m, t, o, a, d⟩ := item
  cases a <;> cases d <;>
    (simp only [processItem, storeMetadataPhase, store_track_metadata]
     repeat' split
     all_goals simp_all [noInitAfter, isInitCall, isTruePoll, perform_cleanup])

/-- Helper for C5: if an item's processing ended with `continue` yet some
poll of the item observed the flag set, it can only have been the poll
before the item started. -/
theorem processItem_seen_next (cancel : Nat → Bool) (k : Nat) (env : ItemEnv)
    (item : UploadQueueItem)
    (hbrk : (processItem cancel k env item).brk = false)
    (hseen : seenAfter (cancel k) (processItem cancel k env item).trace = true) :
    cancel k = true := by
  obtain ⟨n, p0, m, t, o, a, d⟩ := item
  cases a <;> cases d <;>
    (simp only [processItem, storeMetadataPhase, store_track_metadata] at hbrk hseen
     repeat' split at hseen
     all_goals simp_all [seenAfter, isTruePoll, perform_cleanup])

/-- Helper for C5: the cancel flag is polled at most nine times per item
(the source's maximum is five: before the item and after each of the four
external calls). -/
theorem processItem_pollCount (cancel : Nat → Bool) (k : Nat) (env : ItemEnv)
    (item : UploadQueueItem) :
    pollCount (processItem cancel k env item).trace ≤ 9 := by
  obtain ⟨n, p0, m, t, o, a, d⟩ := item
  cases a <;> cases d <;>
    (simp only [processItem, storeMetadataPhase, store_track_metadata]
     repeat' split
     all_goals simp [pollCount, perform_cleanup])

/-- Helper for C5: whenever some poll of an item observes the flag set,
the item's terminal progress status is `Cancelled`. -/
theorem processItem_cancel_terminal (cancel : Nat → Bool) (k : Nat) (env : ItemEnv)
    (item : UploadQueueItem)
    (h : TraceEv.poll true ∈ (processItem cancel k env item).trace) :
    terminalStatus (processItem cancel k env item).trace = some .Cancelled := by
  obtain ⟨n, p0, m, t, o, a, d⟩ := item
  cases a <;> cases d <;>
    (simp only [processItem, storeMetadataPhase, store_track_metadata] at h ⊢
     repeat' split at h
     all_goals simp_all [terminalStatus, perform_cleanup])

/-- Helper for C5: across the whole drain, with a monotone cancel flag
(set once, never cleared — `cancel_upload_queue` only stores `true`), no
initiating external call occurs after any poll has observed the flag
set. -/
theorem drainLoop_noInitAfter (cancel : Nat → Bool)
    (mono : ∀ i j : Nat, i ≤ j → cancel i = true → cancel j = true) :
    ∀ (queue : List (ItemEnv × UploadQueueItem)) (senderAlive : Bool) (k : Nat)
      (seen : Bool), (seen = true → cancel k = true) →
      noInitAfter seen ((drainLoop cancel k senderAlive queue).trace.map Prod.snd) =
        true := by
  intro queue
  induction queue with
  | nil =>
    intro senderAlive k seen hseen
    simp [drainLoop, noInitAfter]
  | cons pr rest ih =>
    intro senderAlive k seen hseen
    obtain ⟨env, item⟩ := pr
    have htag : ((processItem cancel k env item).trace.map
        (fun ev => (item.id, ev))).map Prod.snd =
        (processItem cancel k env item).trace := by
      simp [List.map_map]
    have hA : noInitAfter seen (processItem cancel k env item).trace = true := by
      have h0 := processItem_noInit cancel k env item
      cases hs : seen
      · cases hck : cancel k
        · rw [hck] at h0; exact h0
        · rw [hck] at h0; exact noInitAfter_weaken _ false h0
      · rw [hseen hs] at h0; exact h0
    by_cases hbrk : (processItem cancel k env item).brk = true
    · simp only [drainLoop, hbrk, if_true]
      rw [htag]
      exact hA
    · have hbrk' : (processItem cancel k env item).brk = false := by
        simpa using hbrk
      simp only [drainLoop, hbrk', Bool.false_eq_true, if_false]
      rw [List.map_append, noInitAfter_append, htag]
      have hB : noInitAfter (seenAfter seen (processItem cancel k env item).trace)
          ((drainLoop cancel (k + (processItem cancel k env item).polls) senderAlive
            rest).trace.map Prod.snd) = true := by
        apply ih
        intro hs'
        have hor : seen = true ∨
            (processItem cancel k env item).trace.any isTruePoll = true := by
          simpa [seenAfter, Bool.or_eq_true] using hs'
        rcases hor with hs | hany
        · exact mono k _ (Nat.le_add_right _ _) (hseen hs)
        · have hck : cancel k = true := by
            apply processItem_seen_next cancel k env item hbrk'
            simp [seenAfter, hany]
          exact mono k _ (Nat.le_add_right _ _) hck
      rw [hA, hB]
      rfl

/-- C5: per item the cancel flag is polled at most nine times (the code's
checkpoints: once before the item starts and once after each external call
returns, the post-call polls doubling as the pre-entry checks of the next
states); every poll that observes the flag set sends the item to a
terminal `Cancelled`; and across a whole drain run with a monotone flag
history (the flag is set once by `cancel_upload_queue` and never cleared
during the run), no new external call — transcode spawn, blob put, or
document insert — is initiated after any poll has observed the flag
set. -/
theorem C5_cancellation_checkpoints :
    (∀ (cancel : Nat → Bool) (k : Nat) (env : ItemEnv) (item : UploadQueueItem),
        pollCount (processItem cancel k env item).trace ≤ 9) ∧
    (∀ (cancel : Nat → Bool) (k : Nat) (env : ItemEnv) (item : UploadQueueItem),
        TraceEv.poll true ∈ (processItem cancel k env item).trace →
        terminalStatus (processItem cancel k env item).trace = some .Cancelled) ∧
    (∀ (cancel : Nat → Bool) (senderAlive : Bool)
        (queue : List (ItemEnv × UploadQueueItem)),
        (∀ i j : Nat, i ≤ j → cancel i = true → cancel j = true) →
        noInitAfter false
          ((drainLoop cancel 0 senderAlive queue).trace.map Prod.snd) = true) :=
  ⟨processItem_pollCount,
   processItem_cancel_terminal,
   fun cancel senderAlive queue mono =>
     drainLoop_noInitAfter cancel mono queue senderAlive 0 false
       (fun h => (Bool.false_ne_true h).elim)⟩

/-- The spawned task's drain result is the drain loop's result (whether or
not the task then blocks). -/
theorem runDrainTask_drain (cancel : Nat → Bool) (sa : Bool)
    (queue : List (ItemEnv × UploadQueueItem)) :
    (runDrainTask cancel sa queue).drain = drainLoop cancel 0 sa queue := by
  simp only [runDrainTask]
  split <;> rfl

/-- Every event of a drain trace is tagged with the id of one of the
queued items. -/
theorem drainLoop_trace_ids (cancel : Nat → Bool) :
    ∀ (queue : List (ItemEnv × UploadQueueItem)) (senderAlive : Bool) (k : Nat)
      (pr : Nat × TraceEv),
      pr ∈ (drainLoop cancel k senderAlive queue).trace →
      pr.1 ∈ queue.map fun q => q.2.id := by
  intro queue
  induction queue with
  | nil =>
    intro sa k pr h
    simp [drainLoop] at h
  | cons q rest ih =>
    intro sa k pr h
    obtain ⟨env, item⟩ := q
    by_cases hbrk : (processItem cancel k env item).brk = true
    · simp only [drainLoop, hbrk, if_true] at h
      simp only [List.mem_map] at h
      obtain ⟨ev, _, rfl⟩ := h
      simp
    · have hbrk' : (processItem cancel k env item).brk = false := by simpa using hbrk
      simp only [drainLoop, hbrk', Bool.false_eq_true, if_false, List.mem_append] at h
      rcases h with h | h
      · simp only [List.mem_map] at h
        obtain ⟨ev, _, rfl⟩ := h
        simp
      · have hrec := ih sa (k + (processItem cancel k env item).polls) pr h
        simp only [List.map_cons, List.mem_cons]
        exact Or.inr hrec

/-- Helper for C9: no item enqueued by admission carries the id assigned
to a batch position whose input path does not exist. -/
theorem admit_queued_id_ne (env : AdmissionEnv) (items : List UploadItemInput)
    (i : Nat) (inp : UploadItemInput) (hrecv : env.receiverAlive = true)
    (hinj : Function.Injective env.freshId) (hget : items[i]? = some inp)
    (hmiss : env.pathExists inp.path = false) :
    ∀ q ∈ (items.enum.map fun p => admitItem env p.1 p.2).filterMap Prod.snd,
      q.id ≠ env.freshId i := by
  intro q hq hid
  simp only [List.filterMap_map, List.mem_filterMap, Function.comp] at hq
  obtain ⟨p, hpmem, hpq⟩ := hq
  by_cases hex : env.pathExists p.2.path
  · simp only [admitItem, hex, hrecv, Bool.not_true, Bool.false_eq_true, if_false,
      Option.some.injEq] at hpq
    subst hpq
    simp only [admittedItem] at hid
    have hpi : p.1 = i := hinj hid
    have hmem2 : items[p.1]? = some p.2 := List.mem_enum_iff_getElem?.mp hpmem
    rw [hpi, hget] at hmem2
    have hp2 : p.2 = inp := by cases hmem2; rfl
    rw [hp2, hmiss] at hex
    exact absurd hex (by simp)
  · simp [admitItem, hex] at hpq

/-- C9: under initialized clients and a live receiver, a submitted item
whose input path does not exist gets, at its batch position, the immediate
terminal `Error("File not found")` status update; it is not enqueued (no
queued item carries its id, and the queue consists exactly of the
admitted items whose paths exist, in order, untouched); and no drain-side
event — no transcode, blob put or document call — is ever tagged with its
id. -/
theorem C9_missing_input_immediate_error :
    ∀ (env : AdmissionEnv) (items : List UploadItemInput) (i : Nat)
      (inp : UploadItemInput),
      env.r2Initialized = true → env.mongoInitialized = true →
      env.receiverAlive = true → Function.Injective env.freshId →
      items[i]? = some inp → env.pathExists inp.path = false →
      ∃ evs queued, start_upload_queue env items = .ok (evs, queued) ∧
        evs[i]? = some (.statusUpdate (env.freshId i) (.Error "File not found")
          (some "Input file does not exist.")) ∧
        (∀ q ∈ queued, q.id ≠ env.freshId i) ∧
        queued = items.enum.filterMap (fun p =>
          if env.pathExists p.2.path then some (admittedItem env p.1 p.2) else none) ∧
        (∀ (cancel : Nat → Bool) (senderAlive : Bool) (itemEnvs : List ItemEnv)
            (pr : Nat × TraceEv),
            pr ∈ (runDrainTask cancel senderAlive (itemEnvs.zip queued)).drain.trace →
            pr.1 ≠ env.freshId i) := by
  intro env items i inp hr2 hmongo hrecv hinj hget hmiss
  have hne : items.isEmpty = false := by
    cases items with
    | nil => simp at hget
    | cons a l => rfl
  refine ⟨(items.enum.map fun p => admitItem env p.1 p.2).map Prod.fst,
          (items.enum.map fun p => admitItem env p.1 p.2).filterMap Prod.snd,
          ?_, ?_, ?_, ?_, ?_⟩
  · simp [start_upload_queue, hr2, hmongo, hne]
  · rw [List.getElem?_map, List.getElem?_map, List.getElem?_enum, hget]
    simp [admitItem, hmiss]
  · exact admit_queued_id_ne env items i inp hrecv hinj hget hmiss
  · rw [List.filterMap_map]
    have hfun : (Prod.snd ∘ fun p : Nat × UploadItemInput => admitItem env p.1 p.2) =
        fun p : Nat × UploadItemInput =>
          if env.pathExists p.2.path then some (admittedItem env p.1 p.2) else none := by
      funext p
      by_cases hex : env.pathExists p.2.path <;>
        simp [admitItem, hex, hrecv]
    rw [hfun]
  · intro cancel senderAlive itemEnvs pr hpr hid
    rw [runDrainTask_drain] at hpr
    have hmem := drainLoop_trace_ids cancel _ senderAlive 0 pr hpr
    simp only [List.mem_map] at hmem
    obtain ⟨z, hz, hzid⟩ := hmem
    have hzq : z.2 ∈ (items.enum.map fun p => admitItem env p.1 p.2).filterMap Prod.snd :=
      (List.of_mem_zip hz).2
    exact admit_queued_id_ne env items i inp hrecv hinj hget hmiss z.2 hzq
      (hzid.symm ▸ hid)

/-- C9 (witness): the missing-input behaviour at a concrete two-item batch
whose first item's path does not exist. -/
theorem C9_missing_input_witness :
    ∃ evs queued, start_upload_queue missAdmissionEnv [inpM, inpB] = .ok (evs, queued) ∧
      evs[0]? = some (.statusUpdate (missAdmissionEnv.freshId 0) (.Error "File not found")
        (some "Input file does not exist.")) ∧
      (∀ q ∈ queued, q.id ≠ missAdmissionEnv.freshId 0) ∧
      queued = ([inpM, inpB].enum).filterMap (fun p =>
        if missAdmissionEnv.pathExists p.2.path then
          some (admittedItem missAdmissionEnv p.1 p.2) else none) ∧
      (∀ (cancel : Nat → Bool) (senderAlive : Bool) (itemEnvs : List ItemEnv)
          (pr : Nat × TraceEv),
          pr ∈ (runDrainTask cancel senderAlive (itemEnvs.zip queued)).drain.trace →
          pr.1 ≠ missAdmissionEnv.freshId 0) :=
  C9_missing_input_immediate_error missAdmissionEnv [inpM, inpB] 0 inpM rfl rfl rfl
    (fun _ _ h => h) rfl (by decide)

/-- C10: (i) after the concrete first batch whose drain exits through a
mid-item cancellation, the coordinator is left with the receiver slot
empty, the receiver dropped and `is_processing` clear; (ii) the receiver
option slot, once emptied, is never refilled by any later call; (iii) from
that dead state, any later `start_upload_queue` admission succeeds but
every item whose path exists fails to enqueue — `queue_tx.send` errors
because the receiver was dropped — receiving the terminal
`Error("Failed to queue")` update, no drain processing occurs, and the
state stays dead, so no later item is ever processed by this coordinator
instance. -/
theorem C10_receiver_taken_once_then_queue_dead :
    ((runBatch initialCoordState happyAdmissionEnv [inpA] cancelFrom1 [envHappy]).state =
      { rxPresent := false, receiverAlive := false, isProcessing := false }) ∧
    (∀ (st : CoordState) (env : AdmissionEnv) (items : List UploadItemInput)
        (cancel : Nat → Bool) (itemEnvs : List ItemEnv),
        st.rxPresent = false →
        (runBatch st env items cancel itemEnvs).state.rxPresent = false) ∧
    (∀ (env : AdmissionEnv) (items : List UploadItemInput) (cancel : Nat → Bool)
        (itemEnvs : List ItemEnv) (i : Nat) (inp : UploadItemInput),
        env.r2Initialized = true → env.mongoInitialized = true →
        items[i]? = some inp → env.pathExists inp.path = true →
        (runBatch ⟨false, false, false⟩ env items cancel itemEnvs).admissionError =
          none ∧
        (runBatch ⟨false, false, false⟩ env items cancel itemEnvs).drainTrace = [] ∧
        (runBatch ⟨false, false, false⟩ env items cancel itemEnvs).state =
          ⟨false, false, false⟩ ∧
        (runBatch ⟨false, false, false⟩ env items cancel itemEnvs).events[i]? =
          some (.statusUpdate (env.freshId i) (.Error "Failed to queue")
            (some "Failed to add item to queue: channel closed"))) := by
  refine ⟨by decide, ?_, ?_⟩
  · intro st env items cancel itemEnvs h
    simp only [runBatch]
    repeat' split
    all_goals simp_all
  · intro env items cancel itemEnvs i inp hr2 hmongo hget hex
    have hne : items.isEmpty = false := by
      cases items with
      | nil => simp at hget
      | cons a l => rfl
    have hilt : i < items.length := by
      rcases List.getElem?_eq_some.mp hget with ⟨hlt, _⟩
      exact hlt
    simp only [runBatch, start_upload_queue, hr2, hmongo, hne, Bool.not_true,
      Bool.false_eq_true, if_false, List.isEmpty_eq_false]
    refine ⟨trivial, trivial, trivial, ?_⟩
    rw [List.getElem?_append_left (by simpa using hilt)]
    rw [List.getElem?_map, List.getElem?_map, List.getElem?_enum, hget]
    simp [admitItem, hex]

end PciCatalog
